import Mathlib

/-!
Verification development for the VIPER agent-response interpretation and
execution engine.  The Python modules `response_preprocessor.py`,
`conversation_manager.py`, `tool_manager.py`, `token_manager.py` and
`context_manager.py` are shallowly embedded below: Python strings become
`List Char`, JSON values become `Jval`, the `re` patterns used by the source
are interpreted by a small backtracking matcher with Python semantics
(leftmost match, greedy and lazy repetition, lookahead, word boundary,
end-of-string anchor), and effectful interactions (model replies, operator
confirmations, tool execution) become explicit oracle parameters.
-/

namespace Viper

/-- Opening brace character, written by code point to keep literals plain. -/
def lbrace : Char := Char.ofNat 123

/-- Closing brace character. -/
def rbrace : Char := Char.ofNat 125

/-- Single-quote character (used inside error message literals). -/
def sq : Char := Char.ofNat 39

/-- Python `str.isspace`-style whitespace (ASCII approximation of `\s`). -/
def isPyWs (c : Char) : Bool :=
  c.toNat = 32 ∨ (9 ≤ c.toNat ∧ c.toNat ≤ 13)

/-- Regex word character `[A-Za-z0-9_]` (ASCII approximation of `\w`). -/
def isWordChar (c : Char) : Bool :=
  c.isAlphanum ∨ c = '_'

/-- Python `str.strip()` on character lists. -/
def pyStrip (s : List Char) : List Char :=
  ((s.dropWhile isPyWs).reverse.dropWhile isPyWs).reverse

/-- Lower-case a character list (ASCII, mirroring `str.lower` on ASCII input). -/
def lcList (s : List Char) : List Char := s.map Char.toLower

/-- Upper-case a character list (ASCII, mirroring `str.upper` on ASCII input). -/
def ucList (s : List Char) : List Char := s.map Char.toUpper

/-- Does `text` start with `pat`? -/
def startsWith : List Char → List Char → Bool
  | [], _ => true
  | _ :: _, [] => false
  | p :: ps, c :: cs => p = c ∧ startsWith ps cs

/-- First index at or after position 0 where `pat` occurs in `text`. -/
def findSubAux (pat : List Char) : Nat → List Char → Option Nat
  | _, [] => if pat = [] then some 0 else none
  | i, c :: cs =>
      if startsWith pat (c :: cs) then some i else findSubAux pat (i + 1) cs

/-- Python `str.find` returning an `Option` instead of `-1`. -/
def findSub (text pat : List Char) : Option Nat :=
  if pat = [] then some 0 else findSubAux pat 0 text

/-- Python `sub in s`. -/
def containsSub (text pat : List Char) : Bool :=
  (findSub text pat).isSome

/-- Case-insensitive containment (ASCII). -/
def containsSubCI (text pat : List Char) : Bool :=
  containsSub (lcList text) (lcList pat)

/-- Python `s.split(sep, 1)` for a separator known to occur in `s`. -/
def splitOnce (s sep : List Char) : List Char × List Char :=
  match findSub s sep with
  | some i => (s.take i, s.drop (i + sep.length))
  | none => (s, [])

/-- Slice `text[i:j]` with Python clamping for nonnegative indices. -/
def sliceOf (text : List Char) (i j : Nat) : List Char :=
  (text.drop i).take (j - i)

/-- Decimal digits of a natural number, as characters. -/
def natToChars (n : Nat) : List Char :=
  Nat.toDigits 10 n

/-- Python `list[-k:]`; note that `k = 0` yields the whole list. -/
def pyTakeLast {α : Type} (k : Nat) (xs : List α) : List α :=
  if k = 0 then xs else xs.drop (xs.length - k)

/-- Association-list lookup keyed by character lists (dict access order). -/
def lookupStr {α : Type} : List (List Char × α) → List Char → Option α
  | [], _ => none
  | (k, v) :: rest, key => if k = key then some v else lookupStr rest key

/-- Python dict item assignment: replace in place if present, else append. -/
def dictSet {α : Type} : List (List Char × α) → List Char → α → List (List Char × α)
  | [], key, v => [(key, v)]
  | (k, w) :: rest, key, v =>
      if k = key then (k, v) :: rest else (k, w) :: dictSet rest key v

/-- Python dict merge `\x7bk: v, **other\x7d`: fold the entries of `other`
into the base dict with dict-assignment semantics. -/
def mergeFields {α : Type} (base : List (List Char × α)) :
    List (List Char × α) → List (List Char × α)
  | [] => base
  | (k, v) :: rest => mergeFields (dictSet base k v) rest

/-- JSON values as decoded by `json.loads`.  Numbers keep their source
lexeme so that no floating-point semantics is introduced. -/
inductive Jval where
  | jnull : Jval
  | jbool : Bool → Jval
  | jnum : List Char → Jval
  | jstr : List Char → Jval
  | jarr : List Jval → Jval
  | jobj : List (List Char × Jval) → Jval

/-- Field list of a JSON object (empty for non-objects). -/
def Jval.fieldsOf : Jval → List (List Char × Jval)
  | .jobj fs => fs
  | _ => []

/-- Dict lookup on a JSON object. -/
def jGet (j : Jval) (key : List Char) : Option Jval :=
  match j with
  | .jobj fs => lookupStr fs key
  | _ => none

/-- Dict lookup with default, mirroring `d.get(key, default)` on objects. -/
def jGetD (j : Jval) (key : List Char) (dflt : Jval) : Jval :=
  (jGet j key).getD dflt

/-- Extract a string-valued field of a JSON object. -/
def jGetStr (j : Jval) (key : List Char) : Option (List Char) :=
  match jGet j key with
  | some (.jstr s) => some s
  | _ => none

/-- Extract a number-valued field of a JSON object (its lexeme). -/
def jGetNum (j : Jval) (key : List Char) : Option (List Char) :=
  match jGet j key with
  | some (.jnum s) => some s
  | _ => none

/-- Is a number lexeme a representation of zero (sign, zeros, optional
fraction of zeros, optional exponent)? -/
def numLexIsZero (lex : List Char) : Bool :=
  let body := match lex with
    | '-' :: rest => rest
    | rest => rest
  let mantissa := body.takeWhile (fun c => c ≠ 'e' ∧ c ≠ 'E')
  mantissa.all (fun c => c = '0' ∨ c = '.') ∧ mantissa ≠ []

/-- Python truthiness of a decoded JSON value. -/
def jTruthy : Jval → Bool
  | .jnull => false
  | .jbool b => b
  | .jnum lex => ¬ numLexIsZero lex
  | .jstr s => s ≠ []
  | .jarr xs => ¬ xs.isEmpty
  | .jobj fs => ¬ fs.isEmpty

/-- JSON whitespace accepted by `json.loads` between tokens. -/
def isJsonWs (c : Char) : Bool :=
  c = ' ' ∨ c = '\t' ∨ c = '\n' ∨ c = '\r'

/-- Skip JSON whitespace. -/
def jskipWs : List Char → List Char
  | [] => []
  | c :: cs => if isJsonWs c then jskipWs cs else c :: cs

/-- Hex digit value. -/
def hexVal (c : Char) : Option Nat :=
  if '0' ≤ c ∧ c ≤ '9' then some (c.toNat - 48)
  else if 'a' ≤ c ∧ c ≤ 'f' then some (c.toNat - 87)
  else if 'A' ≤ c ∧ c ≤ 'F' then some (c.toNat - 55)
  else none

/-- Parse the body of a JSON string after the opening quote, with the
strict control-character rejection of `json.loads`. -/
def pStrChars : Nat → List Char → Option (List Char × List Char)
  | 0, _ => none
  | _ + 1, [] => none
  | f + 1, c :: rest =>
    if c = '"' then some ([], rest)
    else if c = '\\' then
      match rest with
      | [] => none
      | e :: r2 =>
        if e = '"' ∨ e = '\\' ∨ e = '/' then
          (pStrChars f r2).map (fun p => (e :: p.1, p.2))
        else if e = 'b' then (pStrChars f r2).map (fun p => (Char.ofNat 8 :: p.1, p.2))
        else if e = 'f' then (pStrChars f r2).map (fun p => (Char.ofNat 12 :: p.1, p.2))
        else if e = 'n' then (pStrChars f r2).map (fun p => ('\n' :: p.1, p.2))
        else if e = 'r' then (pStrChars f r2).map (fun p => (Char.ofNat 13 :: p.1, p.2))
        else if e = 't' then (pStrChars f r2).map (fun p => ('\t' :: p.1, p.2))
        else if e = 'u' then
          match r2 with
          | h1 :: h2 :: h3 :: h4 :: r3 =>
            match hexVal h1, hexVal h2, hexVal h3, hexVal h4 with
            | some a, some b, some cc, some d =>
              (pStrChars f r3).map
                (fun p => (Char.ofNat (((a * 16 + b) * 16 + cc) * 16 + d) :: p.1, p.2))
            | _, _, _, _ => none
          | _ => none
        else none
    else if c.toNat < 32 then none
    else (pStrChars f rest).map (fun p => (c :: p.1, p.2))

/-- Lex the digit run of a number. -/
def lexDigits (cs : List Char) : List Char × List Char :=
  (cs.takeWhile Char.isDigit, cs.dropWhile Char.isDigit)

/-- Lex a JSON number after an optional leading minus has been removed;
returns the lexeme of the unsigned part. -/
def lexNumBody (cs : List Char) : Option (List Char × List Char) :=
  match cs with
  | [] => none
  | c :: _ =>
    if ¬ c.isDigit then none
    else
      let intPart : Option (List Char × List Char) :=
        if c = '0' then some (['0'], cs.drop 1)
        else
          let (ds, rest) := lexDigits cs
          some (ds, rest)
      match intPart with
      | none => none
      | some (ip, rest) =>
        let fracRes : Option (List Char × List Char) :=
          match rest with
          | '.' :: r =>
            let (ds, r2) := lexDigits r
            if ds = [] then none else some ('.' :: ds, r2)
          | _ => some ([], rest)
        match fracRes with
        | none => none
        | some (fp, rest2) =>
          let (ep, rest3) :=
            match rest2 with
            | e :: r =>
              if e = 'e' ∨ e = 'E' then
                match r with
                | s0 :: r2 =>
                  if s0 = '+' ∨ s0 = '-' then
                    let (ds, r3) := lexDigits r2
                    if ds = [] then (([] : List Char), rest2) else (e :: s0 :: ds, r3)
                  else
                    let (ds, r3) := lexDigits r
                    if ds = [] then (([] : List Char), rest2) else (e :: ds, r3)
                | [] => (([] : List Char), rest2)
              else (([] : List Char), rest2)
            | [] => (([] : List Char), rest2)
          some (ip ++ fp ++ ep, rest3)

mutual

/-- Parse one JSON value (leading whitespace already skipped). -/
def pVal : Nat → List Char → Option (Jval × List Char)
  | 0, _ => none
  | _ + 1, [] => none
  | f + 1, c :: cs =>
    if c = lbrace then
      match jskipWs cs with
      | d :: ds =>
        if d = rbrace then some (.jobj [], ds)
        else pMembers f [] (d :: ds)
      | [] => none
    else if c = '[' then
      match jskipWs cs with
      | ']' :: ds => some (.jarr [], ds)
      | rest => pElems f [] rest
    else if c = '"' then
      (pStrChars (cs.length + 1) cs).map (fun p => (.jstr p.1, p.2))
    else if startsWith "true".data (c :: cs) then some (.jbool true, cs.drop 3)
    else if startsWith "false".data (c :: cs) then some (.jbool false, cs.drop 4)
    else if startsWith "null".data (c :: cs) then some (.jnull, cs.drop 3)
    else if startsWith "NaN".data (c :: cs) then some (.jnum "NaN".data, cs.drop 2)
    else if startsWith "Infinity".data (c :: cs) then some (.jnum "Infinity".data, cs.drop 7)
    else if startsWith "-Infinity".data (c :: cs) then some (.jnum "-Infinity".data, cs.drop 8)
    else if c = '-' then
      (lexNumBody cs).map (fun p => (.jnum ('-' :: p.1), p.2))
    else
      (lexNumBody (c :: cs)).map (fun p => (.jnum p.1, p.2))

/-- Parse the members of a JSON object after the opening brace. -/
def pMembers : Nat → List (List Char × Jval) → List Char →
    Option (Jval × List Char)
  | 0, _, _ => none
  | f + 1, acc, cs =>
    match cs with
    | '"' :: cs2 =>
      match pStrChars (cs2.length + 1) cs2 with
      | none => none
      | some (key, rest) =>
        match jskipWs rest with
        | ':' :: rest2 =>
          match pVal f (jskipWs rest2) with
          | none => none
          | some (v, rest3) =>
            match jskipWs rest3 with
            | ',' :: rest4 =>
              match jskipWs rest4 with
              | d :: ds => if d = '"' then pMembers f (acc ++ [(key, v)]) (d :: ds) else none
              | [] => none
            | d :: ds =>
              if d = rbrace then some (.jobj (acc ++ [(key, v)]), ds) else none
            | [] => none
        | _ => none
    | _ => none

/-- Parse the elements of a JSON array after the opening bracket. -/
def pElems : Nat → List Jval → List Char → Option (Jval × List Char)
  | 0, _, _ => none
  | f + 1, acc, cs =>
    match pVal f cs with
    | none => none
    | some (v, rest) =>
      match jskipWs rest with
      | ',' :: rest2 => pElems f (acc ++ [v]) (jskipWs rest2)
      | ']' :: rest2 => some (.jarr (acc ++ [v]), rest2)
      | _ => none

end

/-- Embedding of `json.loads` restricted to acceptance and decoding:
`none` corresponds to a raised `json.JSONDecodeError`. -/
def pyLoads (cs : List Char) : Option Jval :=
  match pVal (cs.length + 1) (jskipWs cs) with
  | some (v, rest) => if jskipWs rest = [] then some v else none
  | none => none

/-- Does `json.loads` accept this text?  Mirrors the `try/except` validation
used by the response preprocessor. -/
def pyJsonValid (cs : List Char) : Bool :=
  (pyLoads cs).isSome

/-- Hexadecimal digits of a code unit, four characters wide. -/
def hex4 (n : Nat) : List Char :=
  let dig := fun k => if k < 10 then Char.ofNat (48 + k) else Char.ofNat (87 + (k - 10))
  [dig (n / 4096 % 16), dig (n / 256 % 16), dig (n / 16 % 16), dig (n % 16)]

/-- Escape one character the way `json.dumps` (with `ensure_ascii=True`) does. -/
def jescChar (c : Char) : List Char :=
  if c = '"' then ['\\', '"']
  else if c = '\\' then ['\\', '\\']
  else if c = '\n' then ['\\', 'n']
  else if c = '\t' then ['\\', 't']
  else if c.toNat = 13 then ['\\', 'r']
  else if c.toNat = 8 then ['\\', 'b']
  else if c.toNat = 12 then ['\\', 'f']
  else if c.toNat < 32 ∨ 127 ≤ c.toNat then
    if c.toNat < 65536 then '\\' :: 'u' :: hex4 c.toNat
    else
      let v := c.toNat - 65536
      ('\\' :: 'u' :: hex4 (55296 + v / 1024)) ++ ('\\' :: 'u' :: hex4 (56320 + v % 1024))
  else [c]

/-- Serialize a string the way `json.dumps` does. -/
def jdumpStr (s : List Char) : List Char :=
  '"' :: (s.flatMap jescChar) ++ ['"']

mutual

/-- Embedding of `json.dumps` with default separators. -/
def jdump : Jval → List Char
  | .jnull => "null".data
  | .jbool true => "true".data
  | .jbool false => "false".data
  | .jnum lex => lex
  | .jstr s => jdumpStr s
  | .jarr xs => '[' :: jdumpList xs ++ [']']
  | .jobj fs => lbrace :: jdumpFields fs ++ [rbrace]

/-- Comma-separated serialization of array elements. -/
def jdumpList : List Jval → List Char
  | [] => []
  | [x] => jdump x
  | x :: y :: rest => jdump x ++ ',' :: ' ' :: jdumpList (y :: rest)

/-- Comma-separated serialization of object members. -/
def jdumpFields : List (List Char × Jval) → List Char
  | [] => []
  | [(k, v)] => jdumpStr k ++ ':' :: ' ' :: jdump v
  | (k, v) :: m :: rest => jdumpStr k ++ ':' :: ' ' :: jdump v ++ ',' :: ' ' :: jdumpFields (m :: rest)

end

/-- Abstract syntax of the regular expressions used by the source.
Literals carry a case-insensitivity flag (pattern stored lower-case when
the flag is set); stars carry a greediness flag; `look` is a zero-width
lookahead; `wordB` is the word boundary; `eol` is the Python dollar anchor
(end of string or just before a terminal newline).  All dot-patterns in
the source are compiled with `re.DOTALL`, so `sym (fun _ => true)` is
exactly the dot. -/
inductive RE where
  | eps : RE
  | sym : (Char → Bool) → RE
  | lit : Bool → List Char → RE
  | seq : RE → RE → RE
  | alt : RE → RE → RE
  | star : Bool → RE → RE
  | grp : Nat → RE → RE
  | look : RE → RE
  | wordB : RE
  | eol : RE

/-- Sequence a list of regex nodes. -/
def RE.cat : List RE → RE
  | [] => .eps
  | [r] => r
  | r :: rs => .seq r (RE.cat rs)

/-- One-or-more repetition. -/
def RE.plus (g : Bool) (a : RE) : RE := .seq a (.star g a)

/-- Greedy optional group. -/
def RE.opt (a : RE) : RE := .alt a .eps

/-- Group captures recorded during a match (most recent first). -/
abbrev Caps := List (Nat × List Char)

/-- Capture lookup. -/
def capGet (caps : Caps) (n : Nat) : Option (List Char) :=
  (caps.find? (fun p => p.1 == n)).map (fun p => p.2)

/-- Capture lookup with empty default. -/
def capGetD (caps : Caps) (n : Nat) : List Char :=
  (capGet caps n).getD []

/-- Consume a literal from the text, tracking the last consumed character. -/
def litStep (ci : Bool) : List Char → Option Char → List Char →
    Option (Option Char × List Char)
  | [], prev, rest => some (prev, rest)
  | _ :: _, _, [] => none
  | p :: ps, _, c :: cs =>
      if (if ci then c.toLower else c) = p then litStep ci ps (some c) cs else none

/-- Backtracking matcher in continuation-passing style with Python
preference order: greedy stars try longer first, lazy stars shorter first,
alternatives left to right.  The fuel bounds the depth of the search and
is chosen large enough that it is never exhausted on the texts considered. -/
def reM {α : Type} : Nat → RE → Option Char → List Char → Caps →
    (Option Char → List Char → Caps → Option α) → Option α
  | 0, _, _, _, _, _ => none
  | f + 1, re, prev, rest, caps, k =>
    match re with
    | .eps => k prev rest caps
    | .sym p =>
      match rest with
      | [] => none
      | c :: rs => if p c then k (some c) rs caps else none
    | .lit ci cs =>
      match litStep ci cs prev rest with
      | some (p2, r2) => k p2 r2 caps
      | none => none
    | .seq a b => reM f a prev rest caps (fun p r c => reM f b p r c k)
    | .alt a b =>
      match reM f a prev rest caps k with
      | some v => some v
      | none => reM f b prev rest caps k
    | .star g a =>
      if g then
        match reM f a prev rest caps (fun p r c => reM f (.star g a) p r c k) with
        | some v => some v
        | none => k prev rest caps
      else
        match k prev rest caps with
        | some v => some v
        | none => reM f a prev rest caps (fun p r c => reM f (.star g a) p r c k)
    | .grp n a =>
      let len0 := rest.length
      reM f a prev rest caps (fun p r c => k p r ((n, rest.take (len0 - r.length)) :: c))
    | .look a =>
      match reM f a prev rest caps (fun _ _ c => some c) with
      | some c2 => k prev rest c2
      | none => none
    | .wordB =>
      let wl := match prev with | some c => isWordChar c | none => false
      let wr := match rest with | c :: _ => isWordChar c | [] => false
      if wl ≠ wr then k prev rest caps else none
    | .eol =>
      if rest = [] ∨ rest = ['\n'] then k prev rest caps else none

/-- Fuel that is ample for every pattern of the source on a given text. -/
def engineFuel (text : List Char) : Nat :=
  400 + 200 * text.length

/-- Leftmost-match search (Python `re.search`), yielding the span and the
captures of the first start position at which the pattern matches. -/
def reSearchStep (fuel : Nat) (re : RE) :
    Nat → Nat → Option Char → List Char → Option (Nat × Nat × Caps)
  | 0, _, _, _ => none
  | it + 1, i, prev, rest =>
    match reM fuel re prev rest [] (fun _ r c => some (c, r.length)) with
    | some (c, rl) => some (i, i + (rest.length - rl), c)
    | none =>
      match rest with
      | [] => none
      | ch :: rs => reSearchStep fuel re it (i + 1) (some ch) rs

/-- Python `re.search`. -/
def reSearch (re : RE) (text : List Char) : Option (Nat × Nat × Caps) :=
  reSearchStep (engineFuel text) re (text.length + 1) 0 none text

/-- Python `re.finditer`: non-overlapping leftmost matches in order. -/
def reFindAllStep (fuel : Nat) (re : RE) :
    Nat → Nat → Option Char → List Char → List (Nat × Nat × Caps)
  | 0, _, _, _ => []
  | it + 1, i, prev, rest =>
    match reM fuel re prev rest [] (fun p r c => some (p, r, c)) with
    | some (p, r, c) =>
      let len := rest.length - r.length
      if len = 0 then
        match rest with
        | [] => []
        | ch :: rs => reFindAllStep fuel re it (i + 1) (some ch) rs
      else (i, i + len, c) :: reFindAllStep fuel re it (i + len) p r
    | none =>
      match rest with
      | [] => []
      | ch :: rs => reFindAllStep fuel re it (i + 1) (some ch) rs

/-- Python `re.finditer`. -/
def reFindAll (re : RE) (text : List Char) : List (Nat × Nat × Caps) :=
  reFindAllStep (engineFuel text) re (text.length + 1) 0 none text

/-- Python `re.sub(pattern, replacement-empty, text)`: delete every
non-overlapping match. -/
def reSubStep (fuel : Nat) (re : RE) : Nat → Option Char → List Char → List Char
  | 0, _, rest => rest
  | it + 1, prev, rest =>
    match reM fuel re prev rest [] (fun p r _ => some (p, r, rest.length - r.length)) with
    | some (p, r, len) =>
      if len = 0 then
        match rest with
        | [] => []
        | ch :: rs => ch :: reSubStep fuel re it (some ch) rs
      else reSubStep fuel re it p r
    | none =>
      match rest with
      | [] => []
      | ch :: rs => ch :: reSubStep fuel re it (some ch) rs

/-- Python `re.sub` with empty replacement. -/
def reSub (re : RE) (text : List Char) : List Char :=
  reSubStep (engineFuel text) re (text.length + 1) none text

/-- Dot under `re.DOTALL`. -/
def anyC : RE := .sym (fun _ => true)

/-- Whitespace class `\s` (ASCII approximation). -/
def wsC : RE := .sym isPyWs

/-- Word class `[A-Za-z0-9_]`, also standing in for `\w` on ASCII text. -/
def wordC : RE := .sym isWordChar

/-- Line 55 of `response_preprocessor.py`. -/
def chanFinalRE : RE :=
  RE.cat [.lit false "<|channel|>final".data, .star false anyC,
          .lit false "<|message|>".data, .grp 1 (RE.plus true anyC), .eol]

/-- Line 63: the GPT-OSS `to=NAME ... JSON-object` pattern (IGNORECASE). -/
def toEqRE : RE :=
  RE.cat [.wordB, .lit true "to=".data, .grp 1 (RE.plus true wordC),
          RE.opt (RE.cat [.star true wsC, .lit true "<|constrain|>".data,
                          RE.plus true wordC]),
          RE.opt (RE.cat [.star true wsC, .lit true "<|message|>".data]),
          .star true wsC,
          .grp 2 (RE.cat [.sym (fun c => c = lbrace),
                          .star true (.sym (fun c => c ≠ rbrace)),
                          .sym (fun c => c = rbrace)])]

/-- Line 75: thought extraction inside the `to=` conversion. -/
def thoughtToRE : RE :=
  RE.cat [.lit true "thought:".data, .star true wsC,
          .grp 1 (.seq anyC (.star false anyC)),
          .look (.alt (.seq .wordB (.lit true "to=".data)) .eol)]

/-- Line 87: channel-message marker pair. -/
def chanMsgRE : RE :=
  RE.cat [.lit false "<|channel|>".data, .star true (.sym (fun c => c ≠ '<')),
          .lit false "<|message|>".data]

/-- Line 88. -/
def endTokRE : RE := .lit false "<|end|>".data

/-- Line 89. -/
def startAsstRE : RE := .lit false "<|start|>assistant".data

/-- Line 90. -/
def constrainRE : RE := .seq (.lit false "<|constrain|>".data) (RE.plus true wordC)

/-- Line 91: generic special-token pattern, also used by the token manager. -/
def tokenRE : RE :=
  RE.cat [.lit false "<|".data, RE.plus true (.sym (fun c => c ≠ '|')),
          .lit false "|>".data]

/-- Line 97: main THOUGHT extraction. -/
def thoughtMainRE : RE :=
  RE.cat [.lit true "thought:".data, .star true wsC,
          .grp 1 (.seq anyC (.star false anyC)),
          .look (.alt (.lit true "tool:".data)
                 (.alt (.lit true "plan:".data)
                  (.alt (.lit true "response:".data) .eol)))]

/-- Line 101: plan detection. -/
def planDetRE : RE := .seq (.lit true "plan:".data) (.star true wsC)

/-- Line 102: plan-name extraction. -/
def planNameRE : RE :=
  RE.cat [.lit true "plan:".data, .star true wsC,
          .grp 1 (RE.plus true (.sym (fun c => c ≠ '\n')))]

/-- Lines 107-111: one plan step block. -/
def stepRE : RE :=
  RE.cat [.lit true "step:".data, .star true wsC,
          .grp 1 (RE.plus true (.sym (fun c => c ≠ '\n'))),
          .star true wsC, .sym (fun c => c = '\n'), .star true wsC,
          .lit true "tool:".data, .star true wsC, .grp 2 (RE.plus true wordC),
          .star true wsC, .sym (fun c => c = '\n'), .star true wsC,
          .lit true "args:".data, .star true wsC,
          .grp 3 (RE.cat [.sym (fun c => c = lbrace),
                          .star true (.sym (fun c => c ≠ '\n')),
                          .sym (fun c => c = rbrace)])]

/-- Line 142: tool-directive detection. -/
def toolDetRE : RE := .seq (.lit true "tool:".data) (.star true wsC)

/-- Line 146: tool-directive name extraction. -/
def toolNameRE : RE :=
  RE.cat [.lit true "tool:".data, .star true wsC, .grp 1 (RE.plus true wordC)]

/-- Line 159: ARGS extraction inside a tool segment (case-sensitive). -/
def argsRE : RE :=
  RE.cat [.lit false "ARGS:".data, .star true wsC,
          .grp 1 (RE.cat [.sym (fun c => c = lbrace), .star false anyC,
                          .sym (fun c => c = rbrace)]),
          .star true wsC, .look (.alt (.sym (fun c => c = '\n')) .eol)]

/-- Line 209: RESPONSE directive. -/
def respRE : RE :=
  RE.cat [.lit true "response:".data, .star true wsC, .grp 1 (RE.plus true anyC)]

/-- Line 601 of `conversation_manager.py`: reevaluation decision token. -/
def decisionRE : RE :=
  RE.cat [.lit true "decision:".data, .star true wsC,
          .grp 1 (.alt (.lit true "continue".data)
                  (.alt (.lit true "update_plan".data)
                   (.alt (.lit true "complete".data) (.lit true "abort".data))))]

/-- Line 602: reevaluation reason. -/
def reasonRE : RE :=
  RE.cat [.lit true "reason:".data, .star true wsC,
          .grp 1 (RE.plus true (.sym (fun c => c ≠ '\n')))]

/-- Step 1 of the preprocessor: keep only the final channel payload when a
final-channel marker is present (lines 55-57). -/
def extractFinalChannel (raw : List Char) : List Char :=
  match reSearch chanFinalRE raw with
  | some (_, _, caps) => capGetD caps 1
  | none => raw

/-- Thought text recovered from the prefix before a `to=` tool call
(lines 74-76). -/
def thoughtBeforeTo (pfx : List Char) : List Char :=
  match reSearch thoughtToRE pfx with
  | some (_, _, caps) => pyStrip (capGetD caps 1)
  | none => []

/-- Replacement block for one `to=` match (line 79). -/
def toEqBlock (r : List Char) (s : Nat) (caps : Caps) : List Char :=
  "THOUGHT: ".data ++ thoughtBeforeTo (sliceOf r 0 s) ++
  "\nTOOL: ".data ++ capGetD caps 1 ++
  "\nARGS: ".data ++ capGetD caps 2

/-- Rebuild the response with every `to=` block replaced (lines 66-84).
Replacing in reverse source order leaves each earlier prefix intact, so
the result is the segment-wise reassembly below. -/
def asmToEq (r : List Char) : Nat → List (Nat × Nat × Caps) → List Char
  | pos, [] => r.drop pos
  | pos, (s, e, caps) :: rest => sliceOf r pos s ++ toEqBlock r s caps ++ asmToEq r e rest

/-- Step 1.5 of the preprocessor. -/
def convertToEq (r : List Char) : List Char :=
  match reFindAll toEqRE r with
  | [] => r
  | ms => asmToEq r 0 ms

/-- Token-manager helper: strip `<|...|>` special tokens
(`token_manager.py` line 60). -/
def stripSpecialTokens (s : List Char) : List Char := reSub tokenRE s

/-- Steps 1-2 of `preprocess_primary_agent_response`: markup extraction,
`to=` conversion, token cleanup, and trailing strip (lines 53-94). -/
def cleanResponse (raw : List Char) : List Char :=
  let r1 := extractFinalChannel raw
  let r2 := convertToEq r1
  let r3 := reSub chanMsgRE r2
  let r4 := reSub endTokRE r3
  let r5 := reSub startAsstRE r4
  let r6 := reSub constrainRE r5
  let r7 := reSub tokenRE r6
  pyStrip r7

/-- THOUGHT content with the `Processing...` default (lines 97-98). -/
def extractThought (c : List Char) : List Char :=
  match reSearch thoughtMainRE c with
  | some (_, _, caps) => pyStrip (capGetD caps 1)
  | none => "Processing...".data

/-- Raw groups of one plan step block. -/
structure StepBlock where
  desc : List Char
  tool : List Char
  args : List Char

/-- All plan step blocks, in text order (lines 107-111). -/
def stepBlocks (c : List Char) : List StepBlock :=
  (reFindAll stepRE c).map (fun m => ⟨capGetD m.2.2 1, capGetD m.2.2 2, capGetD m.2.2 3⟩)

/-- Plan-directive detection (line 101). -/
def planDetected (c : List Char) : Bool := (reSearch planDetRE c).isSome

/-- Plan name with the default (lines 102-103). -/
def planNameOf (c : List Char) : List Char :=
  match reSearch planNameRE c with
  | some (_, _, caps) => pyStrip (capGetD caps 1)
  | none => "Unnamed Plan".data

/-- The literal two-character empty JSON object used for coercions. -/
def emptyObjS : List Char := [lbrace, rbrace]

/-- One step dictionary (lines 113-129): dense renumbering, stripped
fields, and coercion of invalid argument JSON to the empty object. -/
def mkStepObj (n : Nat) (b : StepBlock) : Jval :=
  let args := pyStrip b.args
  .jobj [("step_number".data, .jnum (natToChars n)),
         ("description".data, .jstr (pyStrip b.desc)),
         ("tool".data, .jstr (pyStrip b.tool)),
         ("arguments".data, .jstr (if pyJsonValid args then args else emptyObjS))]

/-- Step dictionaries numbered from `k` (the Python `enumerate(..., 1)`). -/
def buildStepsFrom (k : Nat) : List StepBlock → List Jval
  | [] => []
  | b :: bs => mkStepObj k b :: buildStepsFrom (k + 1) bs

/-- The step list produced by the plan branch (empty when the branch is
not entered). -/
def planStepsOf (c : List Char) : List Jval :=
  if planDetected c then buildStepsFrom 1 (stepBlocks c) else []

/-- Balanced-brace trimming of an argument candidate (lines 166-178). -/
def braceScan : List Char → Nat → Int → Option Nat
  | [], _, _ => none
  | c :: cs, j, cnt =>
    if c = lbrace then braceScan cs (j + 1) (cnt + 1)
    else if c = rbrace then
      if cnt - 1 = 0 then some (j + 1) else braceScan cs (j + 1) (cnt - 1)
    else braceScan cs (j + 1) cnt

/-- Balanced-brace extraction starting at the first opening brace. -/
def balancedBraces (a : List Char) : List Char :=
  match findSub a [lbrace] with
  | none => a
  | some s =>
    match braceScan (a.drop s) s 0 with
    | some e => sliceOf a s e
    | none => sliceOf a s s

/-- TOOL directive matches with their spans (line 146). -/
def toolMatches (c : List Char) : List (Nat × Nat × Caps) := reFindAll toolNameRE c

/-- Pair each tool name with the text segment up to the next directive
(lines 149-156). -/
def toolSegments (c : List Char) : List (Nat × Nat × Caps) → List (List Char × List Char)
  | [] => []
  | (_, e, caps) :: rest =>
    let nend := match rest with
      | [] => c.length
      | (s2, _, _) :: _ => s2
    (pyStrip (capGetD caps 1), sliceOf c e nend) :: toolSegments c rest

/-- ARGS candidate of one segment after stripping and brace balancing
(lines 159-178); `none` when no ARGS line matches. -/
def rawArgCandidate (seg : List Char) : Option (List Char) :=
  match reSearch argsRE seg with
  | some (_, _, caps) => some (balancedBraces (pyStrip (capGetD caps 1)))
  | none => none

/-- Final argument string of one tool call, with invalid JSON coerced to
the empty object (lines 180-187). -/
def extractArgs (seg : List Char) : List Char :=
  match rawArgCandidate seg with
  | some a => if pyJsonValid a then a else emptyObjS
  | none => emptyObjS

/-- One OpenRouter-format tool-call dictionary (lines 189-196). -/
def mkToolCall (k : Nat) (nm args : List Char) : Jval :=
  .jobj [("id".data, .jstr ("call_".data ++ natToChars k)),
         ("type".data, .jstr "function".data),
         ("function".data, .jobj [("name".data, .jstr nm),
                                  ("arguments".data, .jstr args)])]

/-- Tool-call dictionaries with identifiers counted from `k`. -/
def buildCallsFrom (k : Nat) : List (List Char × List Char) → List Jval
  | [] => []
  | (nm, seg) :: rest => mkToolCall k nm (extractArgs seg) :: buildCallsFrom (k + 1) rest

/-- Tool-directive detection (line 142). -/
def toolDetected (c : List Char) : Bool := (reSearch toolDetRE c).isSome

/-- The tool-call list produced by the tool branch. -/
def toolCallsOf (c : List Char) : List Jval :=
  if toolDetected c then buildCallsFrom 1 (toolSegments c (toolMatches c)) else []

/-- RESPONSE directive content (lines 209-210). -/
def findResponse (c : List Char) : Option (List Char) :=
  match reSearch respRE c with
  | some (_, _, caps) => some (capGetD caps 1)
  | none => none

/-- Embedding of `preprocess_primary_agent_response` up to the final
`json.dumps`: the dictionary built by lines 100-221 of
`response_preprocessor.py`, with branch order plan, tool calls, RESPONSE,
plain fallback. -/
def preprocessResult (raw : List Char) : Jval :=
  let c := cleanResponse raw
  let thought := extractThought c
  let psteps := planStepsOf c
  if ¬ psteps.isEmpty then
    .jobj [("content".data, .jstr thought),
           ("plan".data, .jobj [("name".data, .jstr (planNameOf c)),
                                ("steps".data, .jarr psteps)])]
  else
    let tcalls := toolCallsOf c
    if ¬ tcalls.isEmpty then
      .jobj [("content".data, .jstr thought), ("tool_calls".data, .jarr tcalls)]
    else
      match findResponse c with
      | some content => .jobj [("content".data, .jstr (pyStrip content))]
      | none => .jobj [("content".data, .jstr (pyStrip c))]

/-- The full `preprocess_primary_agent_response`, returning the serialized
JSON text exactly as the Python function does. -/
def preprocess_primary_agent_response (raw : List Char) : List Char :=
  jdump (preprocessResult raw)

/-- Parsed reevaluation outcome: the dictionary built by lines 600-628 of
`conversation_manager.py`. -/
structure ReevalParsed where
  action : List Char
  reason : List Char
  plan : Option Jval

/-- Decision-token search of `_reevaluate_plan` (line 601). -/
def findDecisionTok (reply : List Char) : Option (List Char) :=
  (reSearch decisionRE reply).map (fun m => capGetD m.2.2 1)

/-- Reason search of `_reevaluate_plan` (line 602). -/
def findReasonTok (reply : List Char) : Option (List Char) :=
  (reSearch reasonRE reply).map (fun m => capGetD m.2.2 1)

/-- Parsing tail of `_reevaluate_plan` applied to the model reply obtained
from the reevaluation request (lines 600-628): extract the decision token
with the `CONTINUE` default, the reason, and — only for `UPDATE_PLAN` —
the replacement plan through the same preprocessor used for primary
responses. -/
def parse_reevaluation_response (reply : List Char) : ReevalParsed :=
  let decision := match findDecisionTok reply with
    | some d => ucList d
    | none => "CONTINUE".data
  let reason := match findReasonTok reply with
    | some r => pyStrip r
    | none => "No reason provided".data
  let base : ReevalParsed := ⟨lcList decision, reason, none⟩
  if decision = "UPDATE_PLAN".data then
    match jGet (preprocessResult reply) "plan".data with
    | some p => { base with plan := some p }
    | none => base
  else base

/-- Python exceptions that the embedded code can raise or catch. -/
inductive PyExc where
  | typeError : List Char → PyExc
  | attrError : List Char → PyExc
  | jsonError : List Char → PyExc
  | otherError : List Char → PyExc

/-- Message carried by an exception. -/
def PyExc.msg : PyExc → List Char
  | .typeError m => m
  | .attrError m => m
  | .jsonError m => m
  | .otherError m => m

/-- Uniform failure envelope `\x7b"success": False, "error": msg\x7d`. -/
def failObj (msg : List Char) : Jval :=
  .jobj [("success".data, .jbool false), ("error".data, .jstr msg)]

/-- Declared specification of one tool method; `destruct_flag` holds the
value of `method_spec.get("destruct_flag", False)`. -/
structure MethodSpec where
  mname : List Char
  destruct_flag : Bool

/-- Declared specification of one tool. -/
structure ToolSpec where
  methods : List MethodSpec

/-- An attribute of a tool instance: either not callable, or a callable
whose behaviour may raise. -/
inductive ToolAttr where
  | notCallable : ToolAttr
  | callable : (List (List Char × Jval) → Except PyExc Jval) → ToolAttr

/-- A loaded tool instance with its attributes. -/
structure ToolInst where
  attrs : List (List Char × ToolAttr)

/-- The tool registry of `ToolManager`. -/
structure ToolMgr where
  tools : List (List Char × ToolInst)
  tool_specs : List (List Char × ToolSpec)

/-- Embedding of `ToolManager.execute_tool_method` (`tool_manager.py`
lines 129-167): registry lookup, attribute lookup, callability check, and
exception mapping — the gateway itself never lets a tool exception
propagate. -/
def execute_tool_method (tm : ToolMgr) (tool_name method_name : List Char)
    (kwargs : List (List Char × Jval)) : Jval :=
  match lookupStr tm.tools tool_name with
  | none => failObj ("Tool ".data ++ sq :: tool_name ++ sq :: " not found".data)
  | some inst =>
    match lookupStr inst.attrs method_name with
    | none =>
        failObj ("Method ".data ++ sq :: method_name ++ sq :: " not found in tool ".data
                 ++ sq :: tool_name ++ [sq])
    | some .notCallable =>
        failObj (sq :: method_name ++ sq :: " is not a callable method".data)
    | some (.callable f) =>
      match f kwargs with
      | .ok r => r
      | .error (.typeError m) => failObj ("Invalid parameters: ".data ++ m)
      | .error e => failObj ("Execution error: ".data ++ e.msg)

/-- Embedding of `ToolManager._get_method_spec` (lines 169-179). -/
def _get_method_spec (tm : ToolMgr) (tool_name method_name : List Char) :
    Option MethodSpec :=
  match lookupStr tm.tool_specs tool_name with
  | none => none
  | some spec => spec.methods.find? (fun m => m.mname == method_name)

/-- The `TOOL_CONFIG` execution policy. -/
structure ToolPolicy where
  tools_enabled : Bool
  auto_execute_non_destructive : Bool
  auto_execute_destructive : Bool

/-- An OpenRouter-format tool call as read by the gateway: the function
name and argument text it actually uses, plus any further caller-supplied
dictionary entries, which the code never reads. -/
structure ORCall where
  functionName : List Char
  argumentsStr : List Char
  extra : List (List Char × Jval)

/-- Gateway outcome: the returned dictionary, whether the underlying tool
method was invoked, and whether an operator confirmation was requested. -/
structure GateOut where
  result : Jval
  invoked : Bool
  asked : Bool

/-- Abbreviated stand-in for the `str(e)` of a `json.JSONDecodeError`. -/
def jsonDecodeMsg : List Char := "Expecting value".data

/-- Abbreviated stand-in for the `str(e)` of the `TypeError` raised when
`**params` unpacking receives a non-mapping. -/
def kwargsTypeMsg : List Char := "argument after ** must be a mapping".data

/-- Abbreviated stand-in for the `str(e)` of the `TypeError` raised by item
assignment on a non-dictionary result. -/
def itemAssignMsg : List Char := "object does not support item assignment".data

/-- Embedding of `ConversationManager._execute_openrouter_tool_call`
(`conversation_manager.py` lines 288-338).  The operator answer to a
confirmation prompt is the oracle `confirmAnswer`; it is consulted only
when a confirmation is actually requested. -/
def _execute_openrouter_tool_call (tmO : Option ToolMgr) (cfg : ToolPolicy)
    (confirmAnswer : Bool) (call : ORCall) : GateOut :=
  match tmO with
  | none => ⟨failObj "Tools are not enabled".data, false, false⟩
  | some tm =>
    let function_name := call.functionName
    if ¬ containsSub function_name "__".data then
      ⟨failObj ("Invalid function name format: ".data ++ function_name), false, false⟩
    else
      let nm := splitOnce function_name "__".data
      match pyLoads call.argumentsStr with
      | none => ⟨failObj ("Tool execution failed: ".data ++ jsonDecodeMsg), false, false⟩
      | some params =>
        let method_spec := _get_method_spec tm nm.1 nm.2
        let is_destructive := match method_spec with
          | some ms => ms.destruct_flag
          | none => false
        let needs_confirmation :=
          (is_destructive && !cfg.auto_execute_destructive) ||
          (!is_destructive && !cfg.auto_execute_non_destructive)
        if needs_confirmation && !confirmAnswer then
          ⟨failObj "Tool execution cancelled by user".data, false, true⟩
        else
          match params with
          | .jobj pf =>
            match execute_tool_method tm nm.1 nm.2 pf with
            | .jobj rf =>
                ⟨.jobj (dictSet rf "function_called".data (.jstr function_name)),
                 true, needs_confirmation⟩
            | _ => ⟨failObj ("Tool execution failed: ".data ++ itemAssignMsg),
                    true, needs_confirmation⟩
          | _ => ⟨failObj ("Tool execution failed: ".data ++ kwargsTypeMsg),
                  false, needs_confirmation⟩

/-- Result dictionary returned by `_reevaluate_plan`, used as an oracle
stream by the plan executor. -/
structure ReevalRes where
  action : List Char
  reason : List Char
  plan : Option Jval

/-- Default used only when the oracle stream is exhausted. -/
def defaultReevalRes : ReevalRes := ⟨"continue".data, [], none⟩

/-- Mutable state of the `_execute_plan` while loop, together with the
remaining oracle streams for reevaluation decisions and operator
confirmations. -/
structure PlanState where
  steps : List Jval
  planName : Jval
  idx : Nat
  results : List Jval
  succ : Nat
  reevals : List ReevalRes
  confirms : List Bool

/-- Terminal summary dictionary (lines 516-520). -/
def planSummary (st : PlanState) : Jval :=
  .jobj [("success".data, .jbool (st.succ == st.steps.length)),
         ("plan_name".data, st.planName),
         ("total_steps".data, .jnum (natToChars st.steps.length)),
         ("successful_steps".data, .jnum (natToChars st.succ)),
         ("results".data, .jarr st.results)]

/-- Python `d.get(key, default)`, raising `AttributeError` on non-dicts. -/
def pyDictGet (j : Jval) (key : List Char) (dflt : Jval) : Except PyExc Jval :=
  match j with
  | .jobj fs => .ok ((lookupStr fs key).getD dflt)
  | _ => .error (.attrError "object has no attribute get".data)

/-- Python `sub in container` for the containers that can arise here. -/
def pyContains (container : Jval) (sub : List Char) : Except PyExc Bool :=
  match container with
  | .jstr s => .ok (containsSub s sub)
  | .jarr xs => .ok (xs.any (fun x => match x with | .jstr s => s == sub | _ => false))
  | .jobj fs => .ok (fs.any (fun p => p.1 == sub))
  | _ => .error (.typeError "argument of type is not iterable".data)

/-- Python `s.split(sep, 1)`, raising `AttributeError` on non-strings. -/
def pySplitAttr (j : Jval) (sep : List Char) : Except PyExc (List Char × List Char) :=
  match j with
  | .jstr s => .ok (splitOnce s sep)
  | _ => .error (.attrError "object has no attribute split".data)

/-- Python `json.loads` applied to a decoded value: a decode failure is the
catchable `none`, a non-string argument raises. -/
def pyJsonLoadsJ (j : Jval) : Except PyExc (Option Jval) :=
  match j with
  | .jstr s => .ok (pyLoads s)
  | _ => .error (.typeError "the JSON object must be str".data)

/-- Python item assignment `d[key] = v`. -/
def pySetItem (j : Jval) (key : List Char) (v : Jval) : Except PyExc Jval :=
  match j with
  | .jobj fs => .ok (.jobj (dictSet fs key v))
  | _ => .error (.typeError itemAssignMsg)

/-- Keyword-argument unpacking `**params`. -/
def asKwargs (j : Jval) : Except PyExc (List (List Char × Jval)) :=
  match j with
  | .jobj fs => .ok fs
  | _ => .error (.typeError kwargsTypeMsg)

/-- List extraction, as needed by `len(steps)` and indexing. -/
def asJList (j : Jval) : Except PyExc (List Jval) :=
  match j with
  | .jarr xs => .ok xs
  | _ => .error (.typeError "object has no len".data)

/-- Failure entry appended before a `break` (lines 416 and 424). -/
def mkFailEntry (stepNum desc : Jval) (err : List Char) : Jval :=
  .jobj [("step".data, stepNum), ("description".data, desc),
         ("success".data, .jbool false), ("error".data, .jstr err)]

/-- Outcome of one loop body up to the success test: either a recorded
failure that breaks the loop, or an executed step with its result entry
and success flag. -/
inductive StepOut where
  | brk : Jval → StepOut
  | ran : Jval → Bool → StepOut

/-- Lines 405-434 of `_execute_plan`: field extraction with defaults, tool
name validation, argument parsing, tool execution, result annotation and
the appended result entry. -/
def planStepExec (tm : ToolMgr) (step : Jval) (idx : Nat) : Except PyExc StepOut := do
  let step_num ← pyDictGet step "step_number".data (.jnum (natToChars (idx + 1)))
  let description ← pyDictGet step "description".data (.jstr "Unknown step".data)
  let tool_full ← pyDictGet step "tool".data (.jstr [])
  let arguments_str ← pyDictGet step "arguments".data (.jstr emptyObjS)
  let hd ← pyContains tool_full "__".data
  if hd then do
    let nmm ← pySplitAttr tool_full "__".data
    match ← pyJsonLoadsJ arguments_str with
    | none => pure (.brk (mkFailEntry step_num description "Invalid JSON arguments".data))
    | some params => do
      let kw ← asKwargs params
      let r0 := execute_tool_method tm nmm.1 nmm.2 kw
      let r1 ← pySetItem r0 "description".data description
      let r2 ← pySetItem r1 "step_number".data step_num
      let entry := Jval.jobj (mergeFields [("step".data, step_num)] r2.fieldsOf)
      pure (.ran entry (jTruthy (jGetD r2 "success".data (.jbool false))))
  else
    pure (.brk (mkFailEntry step_num description "Invalid tool format".data))

/-- The while loop of `_execute_plan` (lines 404-514), with fuel bounding
the number of iterations.  Reevaluation decisions and operator
confirmations are consumed from the state's oracle streams in program
order; summaries are taken at every `break` and at loop exit. -/
def _execute_plan_loop (tm : ToolMgr) (allowReeval : Bool) :
    Nat → PlanState → Except PyExc Jval
  | 0, st => .ok (planSummary st)
  | fuel + 1, st =>
    match st.steps.get? st.idx with
    | none => .ok (planSummary st)
    | some step =>
      match planStepExec tm step st.idx with
      | .error e => .error e
      | .ok (.brk entry) => .ok (planSummary { st with results := st.results ++ [entry] })
      | .ok (.ran entry ok) =>
        if ok then
          let st1 := { st with results := st.results ++ [entry], succ := st.succ + 1 }
          if allowReeval ∧ st1.idx + 1 < st1.steps.length then
            let rv := st1.reevals.headD defaultReevalRes
            let st2 := { st1 with reevals := st1.reevals.tail }
            if rv.action = "continue".data then
              _execute_plan_loop tm allowReeval fuel { st2 with idx := st2.idx + 1 }
            else if rv.action = "update_plan".data then
              let up := rv.plan.getD .jnull
              if jTruthy up then
                let ans := st2.confirms.headD true
                let st3 := { st2 with confirms := st2.confirms.tail }
                if ans then
                  match pyDictGet up "steps".data (.jarr []) with
                  | .error e => .error e
                  | .ok stepsJ =>
                    match asJList stepsJ with
                    | .error e => .error e
                    | .ok nsteps =>
                      match pyDictGet up "name".data st3.planName with
                      | .error e => .error e
                      | .ok nm =>
                        _execute_plan_loop tm allowReeval fuel
                          { st3 with steps := nsteps, planName := nm, idx := st3.idx + 1 }
                else .ok (planSummary st3)
              else _execute_plan_loop tm allowReeval fuel { st2 with idx := st2.idx + 1 }
            else if rv.action = "complete".data then .ok (planSummary st2)
            else if rv.action = "abort".data then .ok (planSummary st2)
            else _execute_plan_loop tm allowReeval fuel { st2 with idx := st2.idx + 1 }
          else _execute_plan_loop tm allowReeval fuel { st1 with idx := st1.idx + 1 }
        else
          let st1 := { st with results := st.results ++ [entry] }
          if allowReeval then
            let rv := st1.reevals.headD defaultReevalRes
            let st2 := { st1 with reevals := st1.reevals.tail }
            if rv.action = "update_plan".data then
              let up := rv.plan.getD .jnull
              if jTruthy up then
                let ans := st2.confirms.headD true
                let st3 := { st2 with confirms := st2.confirms.tail }
                if ans then
                  match pyDictGet up "steps".data (.jarr []) with
                  | .error e => .error e
                  | .ok stepsJ =>
                    match asJList stepsJ with
                    | .error e => .error e
                    | .ok nsteps =>
                      match pyDictGet up "name".data st3.planName with
                      | .error e => .error e
                      | .ok nm =>
                        _execute_plan_loop tm allowReeval fuel
                          { st3 with steps := nsteps, planName := nm, idx := 0,
                                     results := [], succ := 0 }
                else .ok (planSummary st3)
              else .ok (planSummary st2)
            else .ok (planSummary st2)
          else .ok (planSummary st1)

/-- Embedding of `_execute_plan` (lines 366-520): plan confirmation, then
the step loop.  The first element of `confirms` answers the initial
`Execute this plan?` prompt. -/
def _execute_plan (tm : ToolMgr) (allowReeval : Bool) (plan : Jval)
    (reevals : List ReevalRes) (confirms : List Bool) (fuel : Nat) :
    Except PyExc Jval := do
  let plan_name ← pyDictGet plan "name".data (.jstr "Unnamed Plan".data)
  let stepsJ ← pyDictGet plan "steps".data (.jarr [])
  let c0 := confirms.headD true
  let confirms1 := confirms.tail
  if ¬ c0 then
    pure (Jval.jobj [("success".data, .jbool false),
                     ("error".data, .jstr "Plan execution cancelled by user".data)])
  else do
    let steps ← asJList stepsJ
    _execute_plan_loop tm allowReeval fuel ⟨steps, plan_name, 0, [], 0, reevals, confirms1⟩

/-- A conversation message. -/
structure Msg where
  role : List Char
  content : List Char

/-- Embedding of `ContextManager` configuration: the token window and
threshold from the configuration dictionaries, the opaque token counter,
and the summarization model call as an oracle on the prompt text. -/
structure CtxMgr where
  token_window : Nat
  compression_threshold : ℚ
  recent_messages_to_keep : Nat
  count_tokens : List Char → Nat
  summarize : List Char → Except Unit (List Char)

/-- Embedding of `TokenManager.get_conversation_token_count`
(`token_manager.py` lines 42-65): two priming tokens, four per message,
and the count of each value after special-token stripping (conversation
messages carry exactly the `role` and `content` keys). -/
def get_conversation_token_count (cm : CtxMgr) (msgs : List Msg) : Nat :=
  2 + (msgs.map (fun m =>
        4 + cm.count_tokens (stripSpecialTokens m.role)
          + cm.count_tokens (stripSpecialTokens m.content))).sum

/-- Join pieces with a separator. -/
def joinWith (sep : List Char) : List (List Char) → List Char
  | [] => []
  | [x] => x
  | x :: y :: rest => x ++ sep ++ joinWith sep (y :: rest)

/-- Element of `json.dumps(messages, indent=2)` for one message dict. -/
def jdumpMsgIndent (m : Msg) : List Char :=
  "  ".data ++ lbrace :: "\n    ".data ++ jdumpStr "role".data ++ ": ".data
  ++ jdumpStr m.role ++ ",\n    ".data ++ jdumpStr "content".data ++ ": ".data
  ++ jdumpStr m.content ++ "\n  ".data ++ [rbrace]

/-- Python `json.dumps(list_of_messages, indent=2)`. -/
def jdumpMsgsIndent2 (msgs : List Msg) : List Char :=
  match msgs with
  | [] => "[]".data
  | _ => '[' :: '\n' :: joinWith ",\n".data (msgs.map jdumpMsgIndent) ++ '\n' :: [']']

/-- Summarization prompt built at `context_manager.py` lines 104-110. -/
def summaryPromptText (middle : List Msg) : List Char :=
  "Please summarize the following conversation exchange concisely. This summary will be used as context for a continuing conversation, so it must preserve key facts, user requests, and AI decisions. The conversation is between a ".data
  ++ sq :: "user".data ++ sq :: " and an ".data ++ sq :: "assistant".data
  ++ sq :: ".\n\nCONVERSATION:\n".data ++ jdumpMsgsIndent2 middle

/-- Embedding of `ContextManager._aggressive_compress` (lines 151-190). -/
def _aggressive_compress (cm : CtxMgr) (msgs : List Msg) : List Msg :=
  let ak := max 3 (cm.recent_messages_to_keep / 3)
  if msgs.length ≤ ak + 1 then msgs
  else
    match msgs with
    | [] => msgs
    | sysm :: _ =>
      let note : Msg := ⟨"system".data,
        "[Context heavily compressed due to token limits. Earlier conversation history (".data
        ++ natToChars (msgs.length - ak - 1)
        ++ " messages) has been truncated. Only the most recent ".data
        ++ natToChars ak ++ " messages are preserved.]".data⟩
      sysm :: note :: pyTakeLast ak msgs

/-- Embedding of `ContextManager._compress_context` (lines 73-149).  The
slice `messages[1:-k]` is empty when `k = 0`, matching Python. -/
def _compress_context (cm : CtxMgr) (msgs : List Msg) : List Msg :=
  if msgs.length < cm.recent_messages_to_keep + 2 then msgs
  else
    match msgs with
    | [] => msgs
    | sysm :: _ =>
      let recent := pyTakeLast cm.recent_messages_to_keep msgs
      let middle :=
        if cm.recent_messages_to_keep = 0 then []
        else (msgs.drop 1).take (msgs.length - 1 - cm.recent_messages_to_keep)
      if middle.isEmpty then msgs
      else
        let prompt := summaryPromptText middle
        let stoks := get_conversation_token_count cm [⟨"user".data, prompt⟩]
        if (stoks : ℚ) > (cm.token_window : ℚ) * (9 / 10) then
          _aggressive_compress cm msgs
        else
          match cm.summarize prompt with
          | .error _ => sysm :: pyTakeLast (cm.recent_messages_to_keep + 4) msgs
          | .ok summary =>
            [sysm, ⟨"system".data, "Summary of earlier conversation: ".data ++ summary⟩]
            ++ recent

/-- Embedding of `ContextManager.manage` (lines 44-71). -/
def manage (cm : CtxMgr) (msgs : List Msg) : List Msg :=
  let token_count := get_conversation_token_count cm msgs
  if (token_count : ℚ) > (cm.token_window : ℚ) * cm.compression_threshold then
    let compressed := _compress_context cm msgs
    let compressed_tokens := get_conversation_token_count cm compressed
    if (compressed_tokens : ℚ) > (cm.token_window : ℚ) * (95 / 100) then
      _aggressive_compress cm compressed
    else compressed
  else msgs

/-- Modelled from the spec: `normalize` step 4 speaks of recognizing a
"tool-call array in an externally defined wire shape" inside JSON text;
`preprocess_primary_agent_response` has no such branch, so this detector
exists only to state the corresponding hypothesis of claim C2. -/
def jsonToolCallsDetected (c : List Char) : Bool :=
  match pyLoads c with
  | some j => (jGet j "tool_calls".data).isSome
  | none => false

/-- C9: for every message list whose token cost is at most
`token_window_size * compression_threshold`, `manage` returns the list
unchanged, and consequently applying `manage` twice yields the same result
as applying it once on such a list. -/
theorem C9_manage_under_budget_identity (cm : CtxMgr) (msgs : List Msg)
    (h : (get_conversation_token_count cm msgs : ℚ) ≤
         (cm.token_window : ℚ) * cm.compression_threshold) :
    manage cm msgs = msgs ∧ manage cm (manage cm msgs) = manage cm msgs := by
  have h1 : manage cm msgs = msgs := by
    unfold manage
    rw [if_neg (not_lt.mpr h)]
  exact ⟨h1, by rw [h1, h1]⟩

/-- Concrete context manager for the C9 witness. -/
def c9cm : CtxMgr := ⟨100, 4 / 5, 10, fun _ => 1, fun _ => .error ()⟩

/-- Concrete message list for the C9 witness. -/
def c9msgs : List Msg := [⟨"system".data, "s".data⟩]

/-- Witness for C9 at a concrete under-budget conversation. -/
theorem C9_manage_under_budget_identity_witness :
    ((get_conversation_token_count c9cm c9msgs : ℚ) ≤
      (c9cm.token_window : ℚ) * c9cm.compression_threshold) ∧
    (manage c9cm c9msgs = c9msgs ∧
     manage c9cm (manage c9cm c9msgs) = manage c9cm c9msgs) := by
  have hc : get_conversation_token_count c9cm c9msgs = 8 := rfl
  have h : (get_conversation_token_count c9cm c9msgs : ℚ) ≤
      (c9cm.token_window : ℚ) * c9cm.compression_threshold := by
    rw [hc]; norm_num [c9cm]
  exact ⟨h, C9_manage_under_budget_identity c9cm c9msgs h⟩

/-- C6: unknown tool or unknown method yield a `success: false` result with
a not-found error, and an exception raised by the tool is caught and mapped
to a failure envelope instead of propagating out of the gateway. -/
theorem C6_execute_tool_method_errors (tm : ToolMgr) (tname mname : List Char)
    (kwargs : List (List Char × Jval)) :
    (lookupStr tm.tools tname = none →
      execute_tool_method tm tname mname kwargs =
        failObj ("Tool ".data ++ sq :: tname ++ sq :: " not found".data)) ∧
    (∀ inst, lookupStr tm.tools tname = some inst →
      lookupStr inst.attrs mname = none →
      execute_tool_method tm tname mname kwargs =
        failObj ("Method ".data ++ sq :: mname ++ sq :: " not found in tool ".data
                 ++ sq :: tname ++ [sq])) ∧
    (∀ inst f e, lookupStr tm.tools tname = some inst →
      lookupStr inst.attrs mname = some (.callable f) →
      f kwargs = .error e →
      execute_tool_method tm tname mname kwargs =
        failObj (match e with
          | .typeError m => "Invalid parameters: ".data ++ m
          | e2 => "Execution error: ".data ++ e2.msg)) := by
  refine ⟨fun h => ?_, fun inst h1 h2 => ?_, fun inst f e h1 h2 h3 => ?_⟩
  · unfold execute_tool_method; rw [h]
  · unfold execute_tool_method; simp only [h1, h2]
  · unfold execute_tool_method
    simp only [h1, h2, h3]
    cases e <;> rfl

/-- Concrete tool manager for the C6 witness: one tool with one raising
method. -/
def c6tm : ToolMgr :=
  ⟨[("T".data, ⟨[("boom".data,
      .callable (fun _ => .error (.otherError "kaput".data)))]⟩)],
   [("T".data, ⟨[⟨"boom".data, false⟩]⟩)]⟩

/-- Witness for C6: unknown tool, unknown method, and a raising method all
yield failure envelopes. -/
theorem C6_execute_tool_method_errors_witness :
    execute_tool_method c6tm "NOPE".data "boom".data [] =
      failObj ("Tool ".data ++ sq :: "NOPE".data ++ sq :: " not found".data) ∧
    execute_tool_method c6tm "T".data "other".data [] =
      failObj ("Method ".data ++ sq :: "other".data ++ sq :: " not found in tool ".data
               ++ sq :: "T".data ++ [sq]) ∧
    execute_tool_method c6tm "T".data "boom".data [] =
      failObj ("Execution error: ".data ++ "kaput".data) := by
  refine ⟨(C6_execute_tool_method_errors c6tm "NOPE".data "boom".data []).1 rfl,
          (C6_execute_tool_method_errors c6tm "T".data "other".data []).2.1 _ rfl rfl,
          (C6_execute_tool_method_errors c6tm "T".data "boom".data []).2.2 _
            (fun _ => .error (.otherError "kaput".data)) (.otherError "kaput".data)
            rfl rfl rfl⟩

/-- C8: when no decision token can be parsed from the model reply, the
reevaluation result's action defaults to `continue`. -/
theorem C8_reevaluation_fail_open (reply : List Char)
    (h : findDecisionTok reply = none) :
    (parse_reevaluation_response reply).action = "continue".data := by
  unfold parse_reevaluation_response
  rw [h]
  rw [if_neg (by decide : ¬ ("CONTINUE".data = "UPDATE_PLAN".data))]
  rfl

/-- Witness for C8 on a reply with no decision token. -/
theorem C8_reevaluation_fail_open_witness :
    findDecisionTok "hello there".data = none ∧
    (parse_reevaluation_response "hello there".data).action = "continue".data :=
  ⟨rfl, C8_reevaluation_fail_open "hello there".data rfl⟩

/-- Extract a boolean-valued field of a JSON object. -/
def jGetBool (j : Jval) (key : List Char) : Option Bool :=
  match jGet j key with
  | some (.jbool b) => some b
  | _ => none

/-- Concrete registry for the C1 theorems: one non-destructive method. -/
def c1tm : ToolMgr :=
  ⟨[("FS".data, ⟨[("read".data,
      .callable (fun _ => .ok (.jobj [("success".data, .jbool true)])))]⟩)],
   [("FS".data, ⟨[⟨"read".data, false⟩]⟩)]⟩

/-- Concrete tool call for the C1 theorems. -/
def c1call : ORCall := ⟨"FS__read".data, emptyObjS, []⟩

/-- Counterexample to C1 as stated: a declined confirmation returns
`success: false` without executing the tool, but its error text is
`Tool execution cancelled by user`, not the claimed `cancelled by user`. -/
theorem C1_counterexample :
    jGetStr (_execute_openrouter_tool_call (some c1tm) ⟨true, false, false⟩ false c1call).result
        "error".data = some "Tool execution cancelled by user".data ∧
    jGetStr (_execute_openrouter_tool_call (some c1tm) ⟨true, false, false⟩ false c1call).result
        "error".data ≠ some "cancelled by user".data ∧
    jGetBool (_execute_openrouter_tool_call (some c1tm) ⟨true, false, false⟩ false c1call).result
        "success".data = some false ∧
    (_execute_openrouter_tool_call (some c1tm) ⟨true, false, false⟩ false c1call).invoked
        = false := by
  refine ⟨rfl, ?_, rfl, rfl⟩
  decide

/-- C1 (amended): with tools enabled, a well-formed function name and
argument JSON that decodes to an object, and `d` the destructive flag
taken from the tool's declared method specification: the call proceeds
without a confirmation request exactly when the policy flag matching `d`
is set; an unconfirmed run always invokes the tool; a declined
confirmation yields `success: false` with error
`Tool execution cancelled by user` and does not invoke the tool; and the
outcome is independent of any further caller-supplied fields of the call
dictionary, so caller data can never influence the destructive flag. -/
theorem C1_gateway_policy (tm : ToolMgr) (cfg : ToolPolicy) (ans : Bool)
    (call : ORCall) (pf : List (List Char × Jval)) (d : Bool)
    (hname : containsSub call.functionName "__".data = true)
    (hargs : pyLoads call.argumentsStr = some (.jobj pf))
    (hdest : (match _get_method_spec tm (splitOnce call.functionName "__".data).1
                    (splitOnce call.functionName "__".data).2 with
              | some ms => ms.destruct_flag
              | none => false) = d) :
    ((!(_execute_openrouter_tool_call (some tm) cfg ans call).asked) =
      (if d then cfg.auto_execute_destructive else cfg.auto_execute_non_destructive)) ∧
    ((_execute_openrouter_tool_call (some tm) cfg ans call).asked = false →
      (_execute_openrouter_tool_call (some tm) cfg ans call).invoked = true) ∧
    ((_execute_openrouter_tool_call (some tm) cfg ans call).asked = true → ans = false →
      (_execute_openrouter_tool_call (some tm) cfg ans call).result =
        failObj "Tool execution cancelled by user".data ∧
      (_execute_openrouter_tool_call (some tm) cfg ans call).invoked = false) ∧
    (∀ e2 : List (List Char × Jval),
      _execute_openrouter_tool_call (some tm) cfg ans { call with extra := e2 } =
      _execute_openrouter_tool_call (some tm) cfg ans call) := by
  refine ⟨?_, ?_, ?_, fun e2 => rfl⟩ <;>
  · unfold _execute_openrouter_tool_call
    simp only [hname, hargs, hdest]
    cases hr : execute_tool_method tm (splitOnce call.functionName "__".data).1
        (splitOnce call.functionName "__".data).2 pf <;>
      cases d <;> cases ans <;>
      cases hA : cfg.auto_execute_destructive <;>
      cases hN : cfg.auto_execute_non_destructive <;>
      simp_all

/-- Witness for C1 at the concrete declined-confirmation scenario. -/
theorem C1_gateway_policy_witness :
    (_execute_openrouter_tool_call (some c1tm) ⟨true, false, false⟩ false c1call).result =
      failObj "Tool execution cancelled by user".data ∧
    (_execute_openrouter_tool_call (some c1tm) ⟨true, false, false⟩ false c1call).invoked
      = false :=
  (C1_gateway_policy c1tm ⟨true, false, false⟩ false c1call [] false rfl rfl rfl).2.2.1 rfl rfl

/-- Dictionary produced by the plan branch of the preprocessor. -/
def planResultForm (raw : List Char) : Jval :=
  .jobj [("content".data, .jstr (extractThought (cleanResponse raw))),
         ("plan".data, .jobj [("name".data, .jstr (planNameOf (cleanResponse raw))),
                              ("steps".data, .jarr (planStepsOf (cleanResponse raw)))])]

/-- Dictionary produced by the tool-call branch of the preprocessor. -/
def toolResultForm (raw : List Char) : Jval :=
  .jobj [("content".data, .jstr (extractThought (cleanResponse raw))),
         ("tool_calls".data, .jarr (toolCallsOf (cleanResponse raw)))]

/-- Branch characterization: a detected plan with at least one step block
wins over everything else. -/
theorem preprocessResult_plan (raw : List Char)
    (h : (planStepsOf (cleanResponse raw)).isEmpty = false) :
    preprocessResult raw = planResultForm raw := by
  unfold preprocessResult planResultForm
  simp [h]

/-- Branch characterization: with no plan steps and a nonempty tool-call
list, the tool branch fires. -/
theorem preprocessResult_tools (raw : List Char)
    (h1 : (planStepsOf (cleanResponse raw)).isEmpty = true)
    (h2 : (toolCallsOf (cleanResponse raw)).isEmpty = false) :
    preprocessResult raw = toolResultForm raw := by
  unfold preprocessResult toolResultForm
  simp [h1, h2]

/-- Branch characterization: the RESPONSE branch. -/
theorem preprocessResult_response (raw : List Char) (content : List Char)
    (h1 : (planStepsOf (cleanResponse raw)).isEmpty = true)
    (h2 : (toolCallsOf (cleanResponse raw)).isEmpty = true)
    (h3 : findResponse (cleanResponse raw) = some content) :
    preprocessResult raw = .jobj [("content".data, .jstr (pyStrip content))] := by
  unfold preprocessResult
  simp [h1, h2, h3]

/-- Branch characterization: the plain fallback. -/
theorem preprocessResult_plain (raw : List Char)
    (h1 : (planStepsOf (cleanResponse raw)).isEmpty = true)
    (h2 : (toolCallsOf (cleanResponse raw)).isEmpty = true)
    (h3 : findResponse (cleanResponse raw) = none) :
    preprocessResult raw = .jobj [("content".data, .jstr (pyStrip (cleanResponse raw)))] := by
  unfold preprocessResult
  simp [h1, h2, h3]

/-- C10: for every input, the normalizer's result dictionary carries a
string-valued `content` field, never both a `plan` and a `tool_calls`
field, and the emitted text is its JSON serialization. -/
theorem C10_normalizer_output_invariant (raw : List Char) :
    (jGetStr (preprocessResult raw) "content".data).isSome = true ∧
    ¬ ((jGet (preprocessResult raw) "plan".data).isSome = true ∧
       (jGet (preprocessResult raw) "tool_calls".data).isSome = true) ∧
    preprocess_primary_agent_response raw = jdump (preprocessResult raw) := by
  refine ⟨?_, ?_, rfl⟩ <;>
  · cases h1 : (planStepsOf (cleanResponse raw)).isEmpty with
    | false =>
      rw [preprocessResult_plan raw h1]
      first
      | exact rfl
      | exact fun hc => Bool.noConfusion hc.2
    | true =>
      cases h2 : (toolCallsOf (cleanResponse raw)).isEmpty with
      | false =>
        rw [preprocessResult_tools raw h1 h2]
        first
        | exact rfl
        | exact fun hc => Bool.noConfusion hc.1
      | true =>
        cases h3 : findResponse (cleanResponse raw) with
        | some content =>
          rw [preprocessResult_response raw content h1 h2 h3]
          first
          | exact rfl
          | exact fun hc => Bool.noConfusion hc.1
        | none =>
          rw [preprocessResult_plain raw h1 h2 h3]
          first
          | exact rfl
          | exact fun hc => Bool.noConfusion hc.1

/-- Witness for C10 at a concrete input. -/
theorem C10_normalizer_output_invariant_witness :
    (jGetStr (preprocessResult "ok".data) "content".data).isSome = true ∧
    ¬ ((jGet (preprocessResult "ok".data) "plan".data).isSome = true ∧
       (jGet (preprocessResult "ok".data) "tool_calls".data).isSome = true) ∧
    preprocess_primary_agent_response "ok".data = jdump (preprocessResult "ok".data) :=
  C10_normalizer_output_invariant "ok".data

/-- Counterexample to C2 as stated: on an input with surrounding
whitespace and no directive of any kind, the fallback carries the cleaned,
stripped text, not the raw text. -/
theorem C2_counterexample :
    (planStepsOf (cleanResponse "  hi  ".data)).isEmpty = true ∧
    (toolCallsOf (cleanResponse "  hi  ".data)).isEmpty = true ∧
    findResponse (cleanResponse "  hi  ".data) = none ∧
    jsonToolCallsDetected (cleanResponse "  hi  ".data) = false ∧
    jGetStr (preprocessResult "  hi  ".data) "content".data = some "hi".data ∧
    jGetStr (preprocessResult "  hi  ".data) "content".data ≠ some "  hi  ".data := by
  refine ⟨rfl, rfl, rfl, rfl, rfl, ?_⟩
  decide

/-- C2 (amended): the normalizer is total by construction, and whenever no
plan directive, no tool directive, no RESPONSE directive and no tool-call
JSON is recognized, it returns a plain-content dictionary carrying the
cleaned, whitespace-stripped text — content is never silently dropped. -/
theorem C2_fallback_plain_response (raw : List Char)
    (h1 : (planStepsOf (cleanResponse raw)).isEmpty = true)
    (h2 : (toolCallsOf (cleanResponse raw)).isEmpty = true)
    (h3 : findResponse (cleanResponse raw) = none)
    (_h4 : jsonToolCallsDetected (cleanResponse raw) = false) :
    preprocessResult raw = .jobj [("content".data, .jstr (pyStrip (cleanResponse raw)))] :=
  preprocessResult_plain raw h1 h2 h3

/-- Witness for C2 at a concrete directive-free input. -/
theorem C2_fallback_plain_response_witness :
    ((planStepsOf (cleanResponse "just words".data)).isEmpty = true ∧
     (toolCallsOf (cleanResponse "just words".data)).isEmpty = true ∧
     findResponse (cleanResponse "just words".data) = none ∧
     jsonToolCallsDetected (cleanResponse "just words".data) = false) ∧
    preprocessResult "just words".data =
      .jobj [("content".data, .jstr (pyStrip (cleanResponse "just words".data)))] :=
  ⟨⟨rfl, rfl, rfl, rfl⟩, C2_fallback_plain_response "just words".data rfl rfl rfl rfl⟩

/-- Length is preserved by step-dictionary construction. -/
theorem buildStepsFrom_length (k : Nat) (bs : List StepBlock) :
    (buildStepsFrom k bs).length = bs.length := by
  induction bs generalizing k with
  | nil => rfl
  | cons b bs ih => simp [buildStepsFrom, ih]

/-- The step numbers assigned by `buildStepsFrom k` are `k, k+1, ...` in
list order. -/
theorem buildStepsFrom_stepNumbers (k : Nat) (bs : List StepBlock) :
    (buildStepsFrom k bs).map (fun s => jGetNum s "step_number".data) =
      (List.range bs.length).map (fun i => some (natToChars (k + i))) := by
  induction bs generalizing k with
  | nil => rfl
  | cons b bs ih =>
    rw [buildStepsFrom, List.map_cons, ih (k + 1), List.length_cons,
        List.range_succ_eq_map, List.map_cons, List.map_map]
    congr 1
    refine List.map_congr_left (fun i _ => ?_)
    have hadd : k + 1 + i = k + (i + 1) := by omega
    simp only [Function.comp_apply, hadd, Nat.succ_eq_add_one]

/-- Indexing into the constructed step list. -/
theorem buildStepsFrom_get (k i : Nat) (bs : List StepBlock) :
    (buildStepsFrom k bs).get? i = (bs.get? i).map (fun b => mkStepObj (k + i) b) := by
  induction bs generalizing k i with
  | nil => cases i <;> rfl
  | cons b bs ih =>
    cases i with
    | zero => rfl
    | succ j =>
      show (buildStepsFrom (k + 1) bs).get? j = _
      rw [ih (k + 1) j]
      have hadd : k + 1 + j = k + (j + 1) := by omega
      rw [hadd]
      rfl

/-- Length is preserved by tool-call construction. -/
theorem buildCallsFrom_length (k : Nat) (l : List (List Char × List Char)) :
    (buildCallsFrom k l).length = l.length := by
  induction l generalizing k with
  | nil => rfl
  | cons p l ih => simp [buildCallsFrom, ih]

/-- Indexing into the constructed tool-call list. -/
theorem buildCallsFrom_get (k i : Nat) (l : List (List Char × List Char)) :
    (buildCallsFrom k l).get? i =
      (l.get? i).map (fun p => mkToolCall (k + i) p.1 (extractArgs p.2)) := by
  induction l generalizing k i with
  | nil => cases i <;> rfl
  | cons p l ih =>
    cases i with
    | zero => rfl
    | succ j =>
      show (buildCallsFrom (k + 1) l).get? j = _
      rw [ih (k + 1) j]
      have hadd : k + 1 + j = k + (j + 1) := by omega
      rw [hadd]
      rfl

/-- The plan branch builds its steps from the step blocks when a plan
directive is detected. -/
theorem planStepsOf_eq (c : List Char) (hp : planDetected c = true) :
    planStepsOf c = buildStepsFrom 1 (stepBlocks c) := by
  simp [planStepsOf, hp]

/-- The tool branch builds its calls from the tool segments when a tool
directive is detected. -/
theorem toolCallsOf_eq (c : List Char) (ht : toolDetected c = true) :
    toolCallsOf c = buildCallsFrom 1 (toolSegments c (toolMatches c)) := by
  simp [toolCallsOf, ht]

/-- C3: when a plan directive is detected and N step blocks are present
with N at least 2, the result is the plan dictionary — even if standalone
tool directives also occur, since the plan branch is tried first — its
steps are the step blocks in text order, and their step numbers are
exactly 1..N. -/
theorem C3_plan_priority_numbering (raw : List Char) (N : Nat)
    (hp : planDetected (cleanResponse raw) = true)
    (hn : (stepBlocks (cleanResponse raw)).length = N)
    (h2 : 2 ≤ N) :
    preprocessResult raw = planResultForm raw ∧
    planStepsOf (cleanResponse raw) = buildStepsFrom 1 (stepBlocks (cleanResponse raw)) ∧
    (planStepsOf (cleanResponse raw)).length = N ∧
    (planStepsOf (cleanResponse raw)).map (fun s => jGetNum s "step_number".data) =
      (List.range N).map (fun i => some (natToChars (i + 1))) := by
  have hps := planStepsOf_eq _ hp
  have hlen : (planStepsOf (cleanResponse raw)).length = N := by
    rw [hps, buildStepsFrom_length, hn]
  have hne : (planStepsOf (cleanResponse raw)).isEmpty = false := by
    cases hq : (planStepsOf (cleanResponse raw)).isEmpty
    · rfl
    · exfalso
      rw [List.isEmpty_iff.mp hq] at hlen
      simp at hlen
      omega
  refine ⟨preprocessResult_plan raw hne, hps, hlen, ?_⟩
  rw [hps, buildStepsFrom_stepNumbers, hn]
  exact List.map_congr_left (fun i _ => by rw [Nat.add_comm])

/-- Concrete plan response for the C3 witness, containing a two-step plan
and a standalone tool directive after it. -/
def c3raw : List Char :=
  "THOUGHT: t\nPLAN: demo\nSTEP: one\nTOOL: FS__read\nARGS: \x7b\x7d\nSTEP: two\nTOOL: FS__read\nARGS: \x7b\x7d\nTOOL: LO__go\nARGS: \x7b\x7d".data

set_option maxRecDepth 10000 in
/-- Witness for C3 at a concrete two-step plan co-occurring with a loose
tool directive. -/
theorem C3_plan_priority_numbering_witness :
    (planDetected (cleanResponse c3raw) = true ∧
     (stepBlocks (cleanResponse c3raw)).length = 2 ∧
     toolDetected (cleanResponse c3raw) = true) ∧
    (preprocessResult c3raw = planResultForm c3raw ∧
     planStepsOf (cleanResponse c3raw) = buildStepsFrom 1 (stepBlocks (cleanResponse c3raw)) ∧
     (planStepsOf (cleanResponse c3raw)).length = 2 ∧
     (planStepsOf (cleanResponse c3raw)).map (fun s => jGetNum s "step_number".data) =
       (List.range 2).map (fun i => some (natToChars (i + 1)))) :=
  ⟨⟨rfl, rfl, rfl⟩, C3_plan_priority_numbering c3raw 2 rfl rfl (by norm_num)⟩

/-- C7: an individual plan step whose argument text fails JSON validation
is coerced to empty-object arguments and the plan is still produced; a
standalone tool directive whose extracted argument candidate fails JSON
validation is likewise coerced and the batch is still produced. -/
theorem C7_invalid_args_coerced :
    (∀ (raw : List Char) (i : Nat) (b : StepBlock),
      planDetected (cleanResponse raw) = true →
      (stepBlocks (cleanResponse raw)).get? i = some b →
      pyJsonValid (pyStrip b.args) = false →
      preprocessResult raw = planResultForm raw ∧
      (planStepsOf (cleanResponse raw)).get? i = some (mkStepObj (1 + i) b) ∧
      jGetStr (mkStepObj (1 + i) b) "arguments".data = some emptyObjS) ∧
    (∀ (raw : List Char) (i : Nat) (nm seg a : List Char),
      (planStepsOf (cleanResponse raw)).isEmpty = true →
      toolDetected (cleanResponse raw) = true →
      (toolSegments (cleanResponse raw) (toolMatches (cleanResponse raw))).get? i
        = some (nm, seg) →
      rawArgCandidate seg = some a →
      pyJsonValid a = false →
      preprocessResult raw = toolResultForm raw ∧
      (toolCallsOf (cleanResponse raw)).get? i = some (mkToolCall (1 + i) nm emptyObjS)) := by
  constructor
  · intro raw i b hp hget hinv
    have hps := planStepsOf_eq _ hp
    have hlt : i < (stepBlocks (cleanResponse raw)).length := by
      by_contra hle
      rw [List.get?_eq_none.mpr (Nat.le_of_not_lt hle)] at hget
      exact Option.noConfusion hget
    have hne : (planStepsOf (cleanResponse raw)).isEmpty = false := by
      rw [hps]
      cases hq : (buildStepsFrom 1 (stepBlocks (cleanResponse raw))).isEmpty
      · rfl
      · exfalso
        have hl := buildStepsFrom_length 1 (stepBlocks (cleanResponse raw))
        rw [List.isEmpty_iff.mp hq] at hl
        simp at hl
        omega
    have hg2 : (planStepsOf (cleanResponse raw)).get? i = some (mkStepObj (1 + i) b) := by
      rw [hps, buildStepsFrom_get, hget]
      rfl
    have harg : jGetStr (mkStepObj (1 + i) b) "arguments".data =
        some (if pyJsonValid (pyStrip b.args) then pyStrip b.args else emptyObjS) := rfl
    rw [hinv] at harg
    rw [if_neg (by decide : ¬ (false = true))] at harg
    exact ⟨preprocessResult_plan raw hne, hg2, harg⟩
  · intro raw i nm seg a h1 ht hget hcand hinv
    have htc := toolCallsOf_eq _ ht
    have hlt : i < (toolSegments (cleanResponse raw) (toolMatches (cleanResponse raw))).length := by
      by_contra hle
      rw [List.get?_eq_none.mpr (Nat.le_of_not_lt hle)] at hget
      exact Option.noConfusion hget
    have hne : (toolCallsOf (cleanResponse raw)).isEmpty = false := by
      rw [htc]
      cases hq : (buildCallsFrom 1 (toolSegments (cleanResponse raw)
          (toolMatches (cleanResponse raw)))).isEmpty
      · rfl
      · exfalso
        have hl := buildCallsFrom_length 1 (toolSegments (cleanResponse raw)
            (toolMatches (cleanResponse raw)))
        rw [List.isEmpty_iff.mp hq] at hl
        simp at hl
        omega
    have hea : extractArgs seg = emptyObjS := by
      unfold extractArgs
      rw [hcand]
      dsimp only
      rw [hinv, if_neg (by decide : ¬ (false = true))]
    have hg2 : (toolCallsOf (cleanResponse raw)).get? i =
        some (mkToolCall (1 + i) nm emptyObjS) := by
      rw [htc, buildCallsFrom_get, hget]
      simp [hea]
    exact ⟨preprocessResult_tools raw h1 hne, hg2⟩

/-- Concrete plan with an invalid-JSON step for the C7 witness. -/
def c7planRaw : List Char :=
  "PLAN: p\nSTEP: s1\nTOOL: FS__read\nARGS: \x7bbad\x7d\nSTEP: s2\nTOOL: FS__read\nARGS: \x7b\x7d".data

/-- Concrete tool directive with invalid JSON for the C7 witness. -/
def c7toolRaw : List Char := "TOOL: FS__read\nARGS: \x7bbad\x7d".data

set_option maxRecDepth 10000 in
/-- Witness for C7 at concrete invalid-argument inputs, one per branch. -/
theorem C7_invalid_args_coerced_witness :
    (preprocessResult c7planRaw = planResultForm c7planRaw ∧
     (planStepsOf (cleanResponse c7planRaw)).get? 0 =
       some (mkStepObj 1 ⟨"s1".data, "FS__read".data, [lbrace, 'b', 'a', 'd', rbrace]⟩) ∧
     jGetStr (mkStepObj 1 ⟨"s1".data, "FS__read".data, [lbrace, 'b', 'a', 'd', rbrace]⟩)
       "arguments".data = some emptyObjS) ∧
    (preprocessResult c7toolRaw = toolResultForm c7toolRaw ∧
     (toolCallsOf (cleanResponse c7toolRaw)).get? 0 =
       some (mkToolCall 1 "FS__read".data emptyObjS)) := by
  constructor
  · exact C7_invalid_args_coerced.1 c7planRaw 0
      ⟨"s1".data, "FS__read".data, [lbrace, 'b', 'a', 'd', rbrace]⟩ rfl rfl rfl
  · exact C7_invalid_args_coerced.2 c7toolRaw 0 "FS__read".data
      ('\n' :: "ARGS: ".data ++ [lbrace, 'b', 'a', 'd', rbrace]) [lbrace, 'b', 'a', 'd', rbrace]
      rfl rfl rfl rfl rfl

/-- C4: when a step fails, reevaluation is enabled, the decision is
`update_plan` with a supplied (truthy) replacement plan, and the operator
confirms, the loop restarts at index 0 of the replacement steps with
results and success count reset; and the terminal summary always reports
`total_steps` and `successful_steps` over the state's current — hence the
replacement — step list. -/
theorem C4_failure_recovery_restart (tm : ToolMgr) (fuel : Nat) (st : PlanState)
    (step entry : Jval) (r : List Char) (P stepsJ nm : Jval) (nsteps : List Jval)
    (rvs : List ReevalRes) (cfs : List Bool)
    (hstep : st.steps[st.idx]? = some step)
    (hexec : planStepExec tm step st.idx = .ok (.ran entry false))
    (hreev : st.reevals = ⟨"update_plan".data, r, some P⟩ :: rvs)
    (htr : jTruthy P = true)
    (hconf : st.confirms = true :: cfs)
    (hsteps : pyDictGet P "steps".data (.jarr []) = .ok stepsJ)
    (hsl : asJList stepsJ = .ok nsteps)
    (hnm : pyDictGet P "name".data st.planName = .ok nm) :
    (_execute_plan_loop tm true (fuel + 1) st =
      _execute_plan_loop tm true fuel ⟨nsteps, nm, 0, [], 0, rvs, cfs⟩) ∧
    (∀ (f2 : Nat) (st2 : PlanState), st2.steps.length ≤ st2.idx →
      _execute_plan_loop tm true f2 st2 = .ok (planSummary st2)) ∧
    (∀ st2 : PlanState,
      jGetNum (planSummary st2) "total_steps".data = some (natToChars st2.steps.length) ∧
      jGetNum (planSummary st2) "successful_steps".data = some (natToChars st2.succ)) := by
  refine ⟨?_, ?_, fun st2 => ⟨rfl, rfl⟩⟩
  · simp [_execute_plan_loop, hstep, hexec, hreev, hconf, htr, hsteps, hsl, hnm]
  · intro f2 st2 hle
    cases f2 with
    | zero => rfl
    | succ f3 =>
      have hnone : st2.steps.get? st2.idx = none := List.get?_eq_none.mpr hle
      simp only [_execute_plan_loop, hnone]

/-- Concrete tool manager for the executor witnesses: a succeeding and a
failing method. -/
def c4tm : ToolMgr :=
  ⟨[("FS".data, ⟨[
      ("ok".data, .callable (fun _ => .ok (.jobj [("success".data, .jbool true)]))),
      ("fail".data, .callable (fun _ =>
        .ok (.jobj [("success".data, .jbool false), ("error".data, .jstr "nope".data)])))]⟩)],
   [("FS".data, ⟨[⟨"ok".data, false⟩, ⟨"fail".data, false⟩]⟩)]⟩

/-- Concrete succeeding plan step. -/
def c4stepOk (n : Nat) : Jval :=
  .jobj [("step_number".data, .jnum (natToChars n)), ("description".data, .jstr "d".data),
         ("tool".data, .jstr "FS__ok".data), ("arguments".data, .jstr emptyObjS)]

/-- Concrete failing plan step. -/
def c4stepFail (n : Nat) : Jval :=
  .jobj [("step_number".data, .jnum (natToChars n)), ("description".data, .jstr "d".data),
         ("tool".data, .jstr "FS__fail".data), ("arguments".data, .jstr emptyObjS)]

/-- Result entry recorded for the concrete failing step 2. -/
def c4entry : Jval :=
  .jobj [("step".data, .jnum (natToChars 2)), ("success".data, .jbool false),
         ("error".data, .jstr "nope".data), ("description".data, .jstr "d".data),
         ("step_number".data, .jnum (natToChars 2))]

/-- Concrete two-step replacement plan. -/
def c4P : Jval :=
  .jobj [("name".data, .jstr "rec".data),
         ("steps".data, .jarr [c4stepOk 10, c4stepOk 11])]

/-- Executor state at the concrete failed step 2 of a 3-step plan. -/
def c4st : PlanState :=
  ⟨[c4stepOk 1, c4stepFail 2, c4stepOk 3], .jstr "orig".data, 1, [], 1,
   [⟨"update_plan".data, "r".data, some c4P⟩], [true]⟩

/-- Terminal state over the replacement plan after both replacement steps
ran. -/
def c4term : PlanState :=
  ⟨[c4stepOk 10, c4stepOk 11], .jstr "rec".data, 2, [], 2, [], []⟩

/-- Witness for C4 at the concrete 3-step plan whose step 2 fails and is
recovered by a confirmed 2-step replacement. -/
theorem C4_failure_recovery_restart_witness :
    (_execute_plan_loop c4tm true 6 c4st =
      _execute_plan_loop c4tm true 5
        ⟨[c4stepOk 10, c4stepOk 11], .jstr "rec".data, 0, [], 0, [], []⟩) ∧
    (_execute_plan_loop c4tm true 3 c4term = .ok (planSummary c4term)) ∧
    (jGetNum (planSummary c4term) "total_steps".data = some (natToChars 2) ∧
     jGetNum (planSummary c4term) "successful_steps".data = some (natToChars 2)) := by
  have h := C4_failure_recovery_restart c4tm 5 c4st (c4stepFail 2) c4entry "r".data c4P
    (.jarr [c4stepOk 10, c4stepOk 11]) (.jstr "rec".data) [c4stepOk 10, c4stepOk 11]
    [] [] rfl rfl rfl rfl rfl rfl rfl rfl
  exact ⟨h.1, h.2.1 3 c4term (by norm_num [c4term]), h.2.2 c4term⟩

/-- C5 (amended): after a successful non-final step with reevaluation
enabled and an `update_plan` decision: a supplied truthy replacement plan
confirmed by the operator replaces the step list with the cursor advancing
to index `idx + 1` of the new list (the first step of the new remainder
when the replacement retains the executed prefix); an operator decline
halts the plan at once with the summary of the results so far; and a
missing replacement plan is treated as `continue` — the cursor advances by
one within the existing plan rather than cancelling it. -/
theorem C5_success_update_plan (tm : ToolMgr) (fuel : Nat) (st : PlanState)
    (step entry : Jval) (r : List Char) (planOpt : Option Jval) (rvs : List ReevalRes)
    (hstep : st.steps[st.idx]? = some step)
    (hexec : planStepExec tm step st.idx = .ok (.ran entry true))
    (hmid : st.idx + 1 < st.steps.length)
    (hreev : st.reevals = ⟨"update_plan".data, r, planOpt⟩ :: rvs) :
    (∀ (P stepsJ nm : Jval) (nsteps : List Jval) (cfs : List Bool),
      planOpt = some P → jTruthy P = true → st.confirms = true :: cfs →
      pyDictGet P "steps".data (.jarr []) = .ok stepsJ →
      asJList stepsJ = .ok nsteps →
      pyDictGet P "name".data st.planName = .ok nm →
      _execute_plan_loop tm true (fuel + 1) st =
        _execute_plan_loop tm true fuel
          ⟨nsteps, nm, st.idx + 1, st.results ++ [entry], st.succ + 1, rvs, cfs⟩) ∧
    (∀ (P : Jval) (cfs : List Bool),
      planOpt = some P → jTruthy P = true → st.confirms = false :: cfs →
      _execute_plan_loop tm true (fuel + 1) st =
        .ok (planSummary ⟨st.steps, st.planName, st.idx, st.results ++ [entry],
                          st.succ + 1, rvs, cfs⟩)) ∧
    (planOpt = none →
      _execute_plan_loop tm true (fuel + 1) st =
        _execute_plan_loop tm true fuel
          ⟨st.steps, st.planName, st.idx + 1, st.results ++ [entry], st.succ + 1,
           rvs, st.confirms⟩) := by
  have hne : ¬ ("update_plan".data = "continue".data) := by decide
  refine ⟨?_, ?_, ?_⟩
  · intro P stepsJ nm nsteps cfs hP htr hconf hsteps hsl hnm
    subst hP
    simp [_execute_plan_loop, hstep, hexec, hreev, hconf, htr, hsteps, hsl, hnm, hmid, hne]
  · intro P cfs hP htr hconf
    subst hP
    simp [_execute_plan_loop, hstep, hexec, hreev, hconf, htr, hmid, hne]
  · intro hP
    subst hP
    simp [_execute_plan_loop, hstep, hexec, hreev, hmid, hne, jTruthy]

/-- Two-step plan for the C5 counterexample. -/
def c5plan : Jval :=
  .jobj [("name".data, .jstr "P".data), ("steps".data, .jarr [c4stepOk 1, c4stepOk 2])]

/-- Full run of the C5 counterexample scenario. -/
def c5run : Except PyExc Jval :=
  _execute_plan c4tm true c5plan [⟨"update_plan".data, [], none⟩] [true] 10

/-- Counterexample to C5 as stated: step 1 of a confirmed 2-step plan
succeeds, the reevaluation decision is `update_plan` with no replacement
plan supplied, and — far from the whole plan being treated as cancelled —
step 2 still executes and the run terminates with 2 of 2 steps
successful. -/
theorem C5_counterexample :
    (c5run.toOption.bind (fun j => jGetNum j "successful_steps".data)) =
      some (natToChars 2) ∧
    (c5run.toOption.bind (fun j => jGetNum j "total_steps".data)) = some (natToChars 2) ∧
    (c5run.toOption.bind (fun j => jGetBool j "success".data)) = some true ∧
    ((c5run.toOption.bind (fun j => jGet j "error".data)).isNone = true) :=
  ⟨rfl, rfl, rfl, rfl⟩

/-- State after step 1 of the C5 witness scenario succeeded. -/
def c5st : PlanState :=
  ⟨[c4stepOk 1, c4stepOk 2], .jstr "P".data, 0, [], 0,
   [⟨"update_plan".data, [], none⟩], [true]⟩

/-- Result entry recorded for the concrete succeeding step 1. -/
def c5entry : Jval :=
  .jobj [("step".data, .jnum (natToChars 1)), ("success".data, .jbool true),
         ("description".data, .jstr "d".data), ("step_number".data, .jnum (natToChars 1))]

/-- Witness for C5: with no replacement plan supplied, the loop continues
with the existing plan and an advanced cursor. -/
theorem C5_success_update_plan_witness :
    _execute_plan_loop c4tm true 6 c5st =
      _execute_plan_loop c4tm true 5
        ⟨[c4stepOk 1, c4stepOk 2], .jstr "P".data, 1, [] ++ [c5entry], 0 + 1,
         [], [true]⟩ :=
  (C5_success_update_plan c4tm 5 c5st (c4stepOk 1) c5entry [] none []
    rfl rfl (by norm_num [c5st]) rfl).2.2 rfl

end Viper
